import Mathlib

/-!
Verification development for the clip-extractor pipeline (src/app.py).

The file shallowly embeds the two core functions of the program,
`analyze_video_with_gemini` (AI request with retry, then a three-strategy
response parse) and `extract_clips` (download then per-suggestion ffmpeg
invocation), together with the pieces of Python runtime behaviour they rely
on: `json.loads`, the two `re.search` patterns, f-string rendering of parsed
JSON values, and dict/key access.

Modelling conventions:
- Text is `List Char` (Python `str` is a sequence of code points).
- JSON numbers are modelled exactly: Python ints as `Int`, Python floats as
  exact decimal fractions `man / 10 ^ exp` (`DecFloat`).  Binary-float
  rounding, scientific-notation `repr` output (|x| >= 1e16 or < 1e-4) and
  overflow to infinity are not modelled; on every concrete input appearing
  below the rendering agrees with CPython.
- External collaborators (the Gemini transport, yt-dlp, the ffmpeg binary)
  are oracle functions passed as parameters; the embedding records the
  exact argument vectors handed to them.
- `Char` classification (`str.isalnum`, whitespace) is modelled on the
  ASCII range, where it agrees with CPython; Unicode-only classifications
  are not exercised by any statement below.
-/

/-! ## Character classes -/

/-- Backtick character (code 96), written numerically. -/
def btick : Char := Char.ofNat 96

/-- Single-quote character (code 39), written numerically. -/
def squote : Char := Char.ofNat 39

/-- Left and right curly brace characters. -/
def lbraceC : Char := Char.ofNat 123

def rbraceC : Char := Char.ofNat 125

/-- Whitespace of Python regex `\s` and of `str.rstrip` (ASCII fragment:
space, tab, newline, carriage return, vertical tab, form feed). -/
def pyWs (c : Char) : Bool :=
  c = ' ' || c = '\t' || c = '\n' || c = '\r' || c = Char.ofNat 11 || c = Char.ofNat 12

/-- JSON whitespace as accepted between tokens by `json.loads`. -/
def jsonWs (c : Char) : Bool :=
  c = ' ' || c = '\t' || c = '\n' || c = '\r'

/-- ASCII alphanumeric test modelling Python `str.isalnum` (which is
Unicode-aware; the two agree on ASCII, the only range exercised here). -/
def pyIsAlnum (c : Char) : Bool :=
  ('a' ≤ c && c ≤ 'z') || ('A' ≤ c && c ≤ 'Z') || ('0' ≤ c && c ≤ '9')

/-! ## Decimal numerals

Python `str` of an `int` is its decimal numeral.  A home-grown numeral
function is used so that its injectivity and digit-only character content
can be proved directly. -/

/-- Decimal digits, most significant first; structural fuel recursion so
that concrete values reduce definitionally (`fuel ≥ n` always suffices
since `n / 10` shrinks by at least one). -/
def natDigitsAux (fuel n : Nat) : List Nat :=
  match fuel with
  | 0 => [n % 10]
  | f + 1 => if n < 10 then [n] else natDigitsAux f (n / 10) ++ [n % 10]

/-- Decimal digits of `n`, most significant first. -/
def natDigits (n : Nat) : List Nat := natDigitsAux n n

/-- Digit value to character. -/
def digitChar (d : Nat) : Char := Char.ofNat (48 + d)

/-- Decimal numeral of `n` as characters (Python `str(n)` for `n ≥ 0`). -/
def natDecimal (n : Nat) : List Char := (natDigits n).map digitChar

/-- Decimal numeral of an integer (Python `str` of an `int`). -/
def intDecimal (n : Int) : List Char :=
  if n < 0 then '-' :: natDecimal n.natAbs else natDecimal n.toNat

/-- Numeric value of a digit list (base 10, most significant first). -/
def digitsVal (l : List Nat) : Nat := l.foldl (fun a d => 10 * a + d) 0

theorem digitsVal_append (xs : List Nat) (d : Nat) :
    digitsVal (xs ++ [d]) = 10 * digitsVal xs + d := by
  simp [digitsVal, List.foldl_append]

theorem digitsVal_natDigitsAux : ∀ f n, n ≤ f → digitsVal (natDigitsAux f n) = n := by
  intro f
  induction f with
  | zero =>
    intro n hn
    have : n = 0 := by omega
    subst this
    simp [natDigitsAux, digitsVal]
  | succ f ih =>
    intro n hn
    rw [natDigitsAux]
    by_cases h : n < 10
    · simp [h, digitsVal]
    · simp only [h, if_false]
      rw [digitsVal_append, ih (n / 10) (by omega)]
      omega

theorem digitsVal_natDigits (n : Nat) : digitsVal (natDigits n) = n :=
  digitsVal_natDigitsAux n n (Nat.le_refl n)

theorem natDigits_injective : Function.Injective natDigits := by
  intro a b h
  have := digitsVal_natDigits a
  rw [h, digitsVal_natDigits] at this
  omega

theorem natDigitsAux_lt_ten : ∀ f n, ∀ d ∈ natDigitsAux f n, d < 10 := by
  intro f
  induction f with
  | zero =>
    intro n d hd
    simp only [natDigitsAux, List.mem_singleton] at hd
    omega
  | succ f ih =>
    intro n d hd
    rw [natDigitsAux] at hd
    by_cases h : n < 10
    · simp only [if_pos h, List.mem_singleton] at hd
      omega
    · simp only [h, if_false, List.mem_append, List.mem_singleton] at hd
      rcases hd with hd | hd
      · exact ih (n / 10) d hd
      · omega

theorem natDigits_lt_ten : ∀ n, ∀ d ∈ natDigits n, d < 10 :=
  fun n => natDigitsAux_lt_ten n n

theorem digitChar_inj {a b : Nat} (ha : a < 10) (hb : b < 10)
    (h : digitChar a = digitChar b) : a = b := by
  interval_cases a <;> interval_cases b <;> revert h <;> decide

theorem map_digitChar_inj : ∀ la lb : List Nat, (∀ d ∈ la, d < 10) → (∀ d ∈ lb, d < 10) →
    la.map digitChar = lb.map digitChar → la = lb := by
  intro la
  induction la with
  | nil =>
    intro lb _ _ h
    cases lb with
    | nil => rfl
    | cons y ys => simp at h
  | cons x xs ih =>
    intro lb ha hb h
    cases lb with
    | nil => simp at h
    | cons y ys =>
      simp only [List.map_cons, List.cons.injEq] at h
      have hx : x = y := digitChar_inj (ha x (by simp)) (hb y (by simp)) h.1
      have hxs : xs = ys :=
        ih ys (fun d hd => ha d (by simp [hd])) (fun d hd => hb d (by simp [hd])) h.2
      simp [hx, hxs]

theorem natDecimal_injective : Function.Injective natDecimal := by
  intro a b h
  exact natDigits_injective
    (map_digitChar_inj _ _ (natDigits_lt_ten a) (natDigits_lt_ten b) h)

theorem natDecimal_all_digit (n : Nat) :
    ∀ c ∈ natDecimal n, 48 ≤ c.toNat ∧ c.toNat ≤ 57 := by
  intro c hc
  unfold natDecimal at hc
  rcases List.mem_map.mp hc with ⟨d, hd, rfl⟩
  have : d < 10 := natDigits_lt_ten n d hd
  interval_cases d <;> simp [digitChar]

/-! ## Python numbers

`json.loads` returns Python `int` for integer literals and `float` for
literals containing a fraction or exponent.  Floats are modelled as exact
decimal fractions `man / 10 ^ exp`. -/

/-- Decimal float: value `man / 10 ^ exp`. -/
structure DecFloat where
  man : Int
  exp : Nat
  deriving Repr, DecidableEq

/-- Drop trailing zero digits of the mantissa (mirrors the normalised form
CPython chooses when rendering a float parsed from a decimal literal). -/
def normFloat (m : Int) : Nat → DecFloat
  | 0 => ⟨m, 0⟩
  | e + 1 => if m % 10 = 0 then normFloat (m / 10) e else ⟨m, e + 1⟩

/-- Rational value of a `DecFloat`. -/
def DecFloat.toRat (f : DecFloat) : Rat := (f.man : Rat) / (10 : Rat) ^ f.exp

theorem normFloat_toRat (m : Int) (e : Nat) :
    (normFloat m e).toRat = (m : Rat) / (10 : Rat) ^ e := by
  induction e generalizing m with
  | zero => simp [normFloat, DecFloat.toRat]
  | succ e ih =>
    unfold normFloat
    by_cases h : m % 10 = 0
    · simp only [if_pos h]
      rw [ih]
      obtain ⟨q, hq⟩ : ∃ q, m = 10 * q := ⟨m / 10, by omega⟩
      subst hq
      have hdiv : 10 * q / 10 = q := by omega
      rw [hdiv]
      push_cast
      rw [pow_succ]
      have h10 : (10 : Rat) ^ e ≠ 0 := by positivity
      field_simp
      ring
    · rw [if_neg h]
      simp [DecFloat.toRat]

/-- A Python number: `int` or `float`. -/
inductive PyNum where
  | int : Int → PyNum
  | float : DecFloat → PyNum
  deriving Repr, DecidableEq

/-- Rational value of a Python number. -/
def PyNum.toRat : PyNum → Rat
  | .int n => (n : Rat)
  | .float f => f.toRat

/-- View a Python number as a decimal float (int promotion). -/
def PyNum.toFloat : PyNum → DecFloat
  | .int n => ⟨n, 0⟩
  | .float f => f

/-- Difference of two decimal floats (exact; CPython float subtraction may
round in binary, which no statement below exercises). -/
def floatSub (a b : DecFloat) : DecFloat :=
  let e := max a.exp b.exp
  normFloat (a.man * 10 ^ (e - a.exp) - b.man * 10 ^ (e - b.exp)) e

/-- Python subtraction `a - b` with int/float promotion. -/
def PyNum.sub : PyNum → PyNum → PyNum
  | .int a, .int b => .int (a - b)
  | a, b => .float (floatSub a.toFloat b.toFloat)

theorem scale_div (m : Int) (e1 e : Nat) (h : e1 ≤ e) :
    ((m : Rat) * (10 : Rat) ^ (e - e1)) / (10 : Rat) ^ e = (m : Rat) / (10 : Rat) ^ e1 := by
  rw [div_eq_div_iff (by positivity) (by positivity), mul_assoc, ← pow_add,
    Nat.sub_add_cancel h]

theorem floatSub_toRat (a b : DecFloat) :
    (floatSub a b).toRat = a.toRat - b.toRat := by
  unfold floatSub
  rw [normFloat_toRat, DecFloat.toRat, DecFloat.toRat]
  push_cast
  rw [sub_div, scale_div _ _ _ (Nat.le_max_left _ _),
    scale_div _ _ _ (Nat.le_max_right _ _)]

theorem PyNum_sub_toRat (a b : PyNum) :
    (PyNum.sub a b).toRat = a.toRat - b.toRat := by
  cases a with
  | int m =>
    cases b with
    | int n =>
      show ((m - n : Int) : Rat) = (m : Rat) - (n : Rat)
      push_cast
      ring
    | float f =>
      show DecFloat.toRat (floatSub ⟨m, 0⟩ f) = (m : Rat) - DecFloat.toRat f
      rw [floatSub_toRat]
      simp [DecFloat.toRat]
  | float f =>
    cases b with
    | int n =>
      show DecFloat.toRat (floatSub f ⟨n, 0⟩) = DecFloat.toRat f - (n : Rat)
      rw [floatSub_toRat]
      simp [DecFloat.toRat]
    | float g =>
      show DecFloat.toRat (floatSub f g) = DecFloat.toRat f - DecFloat.toRat g
      rw [floatSub_toRat]

/-! ## Rendering Python numbers (`str()` / f-string interpolation) -/

/-- Characters of `str(f)` for a decimal float (plain decimal form; CPython
switches to scientific notation outside [1e-4, 1e16), not exercised here). -/
def floatDecimal (f : DecFloat) : List Char :=
  let s := natDecimal f.man.natAbs
  let core :=
    if f.exp = 0 then s ++ ['.', '0']
    else if f.exp < s.length then s.take (s.length - f.exp) ++ '.' :: s.drop (s.length - f.exp)
    else '0' :: '.' :: (List.replicate (f.exp - s.length) '0' ++ s)
  if f.man < 0 then '-' :: core else core

/-- Characters of Python `str(n)` for a parsed JSON number. -/
def pyNumChars : PyNum → List Char
  | .int n => intDecimal n
  | .float f => floatDecimal f

/-- Python `str(n)` for a parsed JSON number. -/
def pyNumStr (n : PyNum) : String := String.mk (pyNumChars n)

/-! ## JSON values as returned by `json.loads` -/

/-- A decoded JSON value.  Object fields keep source order; duplicate keys
are resolved at lookup time (last occurrence wins), matching the dict that
`json.loads` builds. -/
inductive Json where
  | null : Json
  | bool : Bool → Json
  | num : PyNum → Json
  | str : String → Json
  | arr : List Json → Json
  | obj : List (String × Json) → Json
  deriving Repr

/-- Dict lookup: last binding of the key wins (later duplicate keys
overwrite earlier ones when `json.loads` builds the dict). -/
def lookupField (fs : List (String × Json)) (k : String) : Option Json :=
  (fs.reverse.find? (fun p => p.1 == k)).map (·.2)

/-- Python `len()` of a decoded JSON value: defined for list, string and
dict (distinct keys); `None`, booleans and numbers have no length and make
`len()` raise `TypeError`. -/
def pyLen : Json → Option Nat
  | .arr xs => some xs.length
  | .str s => some s.data.length
  | .obj fs => some (fs.map (·.1)).dedup.length
  | _ => none

/-! ## Python `repr`/`str` of decoded JSON values

Used by the f-string that builds the output filename.  String `repr`
escaping models the common cases (backslash, quote, newline, carriage
return, tab); CPython additionally hex-escapes other control characters and
may switch quote style, which nothing below exercises. -/

def strReprEsc (c : Char) : List Char :=
  if c = '\\' then ['\\', '\\']
  else if c = squote then ['\\', squote]
  else if c = '\n' then ['\\', 'n']
  else if c = '\r' then ['\\', 'r']
  else if c = '\t' then ['\\', 't']
  else [c]

/-- Python `repr` of a string (single-quoted). -/
def strRepr (s : String) : String :=
  String.mk (squote :: (s.data.map strReprEsc).flatten ++ [squote])

mutual

/-- Python `repr` of a decoded JSON value. -/
def pyRepr : Json → String
  | .null => "None"
  | .bool b => if b then "True" else "False"
  | .num n => pyNumStr n
  | .str s => strRepr s
  | .arr xs => "[" ++ String.intercalate (", ") (pyReprList xs) ++ "]"
  | .obj fs =>
    String.mk [lbraceC] ++ String.intercalate (", ") (pyReprFields fs) ++ String.mk [rbraceC]

def pyReprList : List Json → List String
  | [] => []
  | x :: xs => pyRepr x :: pyReprList xs

def pyReprFields : List (String × Json) → List String
  | [] => []
  | (k, v) :: fs => (strRepr k ++ ": " ++ pyRepr v) :: pyReprFields fs

end

/-- Python `str()` of a decoded JSON value (as an f-string interpolates it):
identical to `repr` except that a string renders as its own characters.
Scalar cases are spelled out so they reduce definitionally. -/
def pyStr : Json → String
  | .null => "None"
  | .bool b => if b then "True" else "False"
  | .num n => pyNumStr n
  | .str s => s
  | .arr xs => pyRepr (.arr xs)
  | .obj fs => pyRepr (.obj fs)

/-! ## `json.loads`

A recursive-descent parser for the strict JSON grammar accepted by
CPython `json.loads` (its default strict mode): no trailing data, no
trailing commas, no leading zeros, control characters forbidden inside
strings.  `\uXXXX` escapes map to the code point (surrogate-pair joining is
not modelled).  Fuel is structural; `2 * length + 2` always suffices since
every recursive call either consumes a character or moves to a
sub-phrase. -/

/-- Digit test for JSON numerals. -/
def isDig (c : Char) : Bool := '0' ≤ c && c ≤ '9'

/-- Hex digit value. -/
def hexVal (c : Char) : Option Nat :=
  if '0' ≤ c && c ≤ '9' then some (c.toNat - 48)
  else if 'a' ≤ c && c ≤ 'f' then some (c.toNat - 87)
  else if 'A' ≤ c && c ≤ 'F' then some (c.toNat - 55)
  else none

/-- Integer-part digits of a JSON number: `0` alone, or a nonzero digit
followed by more digits (leading zeros are not consumed, so `01` leaves
trailing data and the surrounding parse fails, as in CPython). -/
def parseIntDigits : List Char → Option (List Char × List Char)
  | '0' :: rest => some (['0'], rest)
  | c :: rest =>
    if isDig c then some (c :: rest.takeWhile isDig, rest.dropWhile isDig) else none
  | [] => none

/-- Value of a digit character list. -/
def digCharsVal (l : List Char) : Nat := l.foldl (fun a c => 10 * a + (c.toNat - 48)) 0

/-- Fraction part `\.\d+` of the CPython number regex: consumed only when
a dot with at least one digit follows; otherwise nothing is consumed (the
dot then counts as trailing data for the surrounding parse). -/
def fracPart : List Char → List Char × List Char
  | '.' :: r =>
    if (r.takeWhile isDig).isEmpty then ([], '.' :: r)
    else (r.takeWhile isDig, r.dropWhile isDig)
  | l => ([], l)

/-- Exponent part `[eE][-+]?\d+` of the CPython number regex: consumed only
when complete; otherwise nothing is consumed. -/
def expPart (l : List Char) : Option Int × List Char :=
  match l with
  | e :: r =>
    if e = 'e' || e = 'E' then
      let (esign, r1) : Bool × List Char := match r with
        | '+' :: r2 => (false, r2)
        | '-' :: r2 => (true, r2)
        | _ => (false, r)
      let eds := r1.takeWhile isDig
      if eds.isEmpty then (none, l)
      else (some (if esign then -(digCharsVal eds : Int) else (digCharsVal eds : Int)),
        r1.dropWhile isDig)
    else (none, l)
  | [] => (none, [])

/-- Assemble a Python float from signed mantissa digits, fraction length
and decimal exponent. -/
def mkFloat (neg : Bool) (mds : List Char) (fracLen : Nat) (expo : Int) : PyNum :=
  let m : Int := (digCharsVal mds : Int)
  let m := if neg then -m else m
  let t : Int := expo - fracLen
  if 0 ≤ t then .float (normFloat (m * 10 ^ t.toNat) 0)
  else .float (normFloat m (-t).toNat)

/-- Parse a JSON number starting at the first character (sign included),
following the CPython `json` number regex
`(-?(?:0|[1-9]\d+*))(\.\d+)?([eE][-+]?\d+)?` (with `\d*`): integer result
when neither fraction nor exponent is present, float otherwise. -/
def parseNumber (l : List Char) : Option (PyNum × List Char) :=
  let (neg, l1) : Bool × List Char := match l with
    | '-' :: r => (true, r)
    | _ => (false, l)
  match parseIntDigits l1 with
  | none => none
  | some (ds, l2) =>
    let (fds, l3) := fracPart l2
    let (expo, l4) := expPart l3
    if fds.isEmpty && expo.isNone then
      some (.int (if neg then -(digCharsVal ds : Int) else (digCharsVal ds : Int)), l4)
    else
      some (mkFloat neg (ds ++ fds) fds.length (expo.getD 0), l4)

/-- Parse the body of a JSON string (input starts after the opening quote);
returns the decoded characters and the rest after the closing quote.
Escapes and the strict-mode rejection of raw control characters follow
CPython; `\uXXXX` becomes the code point directly. -/
def parseStringBody : Nat → List Char → Option (List Char × List Char)
  | 0, _ => none
  | _ + 1, [] => none
  | fuel + 1, c :: rest =>
    if c = '"' then some ([], rest)
    else if c = '\\' then
      match rest with
      | [] => none
      | e :: r =>
        if e = '"' then (parseStringBody fuel r).map (fun p => ('"' :: p.1, p.2))
        else if e = '\\' then (parseStringBody fuel r).map (fun p => ('\\' :: p.1, p.2))
        else if e = '/' then (parseStringBody fuel r).map (fun p => ('/' :: p.1, p.2))
        else if e = 'b' then (parseStringBody fuel r).map (fun p => (Char.ofNat 8 :: p.1, p.2))
        else if e = 'f' then (parseStringBody fuel r).map (fun p => (Char.ofNat 12 :: p.1, p.2))
        else if e = 'n' then (parseStringBody fuel r).map (fun p => ('\n' :: p.1, p.2))
        else if e = 'r' then (parseStringBody fuel r).map (fun p => ('\r' :: p.1, p.2))
        else if e = 't' then (parseStringBody fuel r).map (fun p => ('\t' :: p.1, p.2))
        else if e = 'u' then
          match r with
          | h1 :: h2 :: h3 :: h4 :: r4 =>
            match hexVal h1, hexVal h2, hexVal h3, hexVal h4 with
            | some a, some b2, some c2, some d =>
              (parseStringBody fuel r4).map
                (fun p => (Char.ofNat (((a * 16 + b2) * 16 + c2) * 16 + d) :: p.1, p.2))
            | _, _, _, _ => none
          | _ => none
        else none
    else if c.toNat < 32 then none
    else (parseStringBody fuel rest).map (fun p => (c :: p.1, p.2))

mutual

/-- Parse one JSON value (leading whitespace allowed), returning the value
and the unconsumed rest. -/
def parseValue : Nat → List Char → Option (Json × List Char)
  | 0, _ => none
  | fuel + 1, l =>
    match l.dropWhile jsonWs with
    | [] => none
    | c :: rest =>
      if c = '[' then
        match rest.dropWhile jsonWs with
        | ']' :: r2 => some (.arr [], r2)
        | _ => (parseElems fuel rest).map (fun p => (.arr p.1, p.2))
      else if c = lbraceC then
        match rest.dropWhile jsonWs with
        | r0 :: r2 => if r0 = rbraceC then some (.obj [], r2)
            else (parseMembers fuel rest).map (fun p => (.obj p.1, p.2))
        | [] => none
      else if c = '"' then
        (parseStringBody fuel rest).map (fun p => (.str (String.mk p.1), p.2))
      else if c = 't' then
        match rest with
        | 'r' :: 'u' :: 'e' :: r => some (.bool true, r)
        | _ => none
      else if c = 'f' then
        match rest with
        | 'a' :: 'l' :: 's' :: 'e' :: r => some (.bool false, r)
        | _ => none
      else if c = 'n' then
        match rest with
        | 'u' :: 'l' :: 'l' :: r => some (.null, r)
        | _ => none
      else if c = '-' || isDig c then
        (parseNumber (c :: rest)).map (fun p => (.num p.1, p.2))
      else none

/-- Parse the comma-separated elements of a non-empty array, consuming the
closing bracket. -/
def parseElems : Nat → List Char → Option (List Json × List Char)
  | 0, _ => none
  | fuel + 1, l =>
    match parseValue fuel l with
    | none => none
    | some (v, r) =>
      match r.dropWhile jsonWs with
      | ',' :: r2 => (parseElems fuel r2).map (fun p => (v :: p.1, p.2))
      | ']' :: r2 => some ([v], r2)
      | _ => none

/-- Parse the comma-separated members of a non-empty object, consuming the
closing brace. -/
def parseMembers : Nat → List Char → Option (List (String × Json) × List Char)
  | 0, _ => none
  | fuel + 1, l =>
    match l.dropWhile jsonWs with
    | '"' :: r =>
      match parseStringBody fuel r with
      | none => none
      | some (k, r1) =>
        match r1.dropWhile jsonWs with
        | ':' :: r2 =>
          match parseValue fuel r2 with
          | none => none
          | some (v, r3) =>
            match r3.dropWhile jsonWs with
            | ',' :: r4 => (parseMembers fuel r4).map
                (fun p => ((String.mk k, v) :: p.1, p.2))
            | b :: r4 =>
              if b = rbraceC then some ([(String.mk k, v)], r4) else none
            | [] => none
        | _ => none
    | _ => none

end

/-- Model of `json.loads`: parse one value, then require only whitespace to
remain (otherwise CPython raises `Extra data`). -/
def jsonLoadsL (l : List Char) : Option Json :=
  match parseValue (2 * l.length + 2) l with
  | some (v, rest) => if (rest.dropWhile jsonWs).isEmpty then some v else none
  | none => none

theorem sanity_loads_int :
    jsonLoadsL ("42").data = some (.num (.int 42)) := rfl

theorem sanity_loads_float :
    jsonLoadsL ("1.50").data = some (.num (.float ⟨15, 1⟩)) := rfl

/-! ## The two `re.search` patterns of `analyze_video_with_gemini`

Strategy 2 uses `re.search(r'```json\s*(\[.*?\])\s*```', text, re.DOTALL)`:
leftmost occurrence of the literal fence opener, then greedy `\s*` (which
must end exactly at a `[` since `[` is not whitespace), then the lazy
bracketed group: the first `]` whose suffix is whitespace followed by three
backticks.  Strategy 3 uses `re.search(r'\[.*\]', text, re.DOTALL)`: the
first `[` having any later `]`, matched greedily to the last `]` of the
text. -/

/-- Literal fence opener: three backticks then `json`. -/
def fenceOpen : List Char := [btick, btick, btick, 'j', 's', 'o', 'n']

/-- Three closing backticks. -/
def fenceTicks : List Char := [btick, btick, btick]

/-- Does the suffix after a candidate closing `]` match `\s*` followed by
three backticks (rest unconstrained)? -/
def fenceClose (l : List Char) : Bool :=
  (l.dropWhile pyWs).take 3 = fenceTicks

/-- Lazy scan of `.*?` inside the bracketed group: stop at the first `]`
whose suffix matches `\s*` + three backticks.  Returns the group content
(between the brackets). -/
def lazyScan (acc : List Char) : List Char → Option (List Char)
  | [] => none
  | c :: rest =>
    if c = ']' && fenceClose rest then some acc.reverse
    else lazyScan (c :: acc) rest

/-- Try to match the whole fenced pattern at this position; on success
return `group(1)` (the bracketed span). -/
def tryFenceAt (l : List Char) : Option (List Char) :=
  if l.take 7 = fenceOpen then
    match (l.drop 7).dropWhile pyWs with
    | '[' :: body => (lazyScan [] body).map (fun content => '[' :: content ++ [']'])
    | _ => none
  else none

/-- Leftmost match of the fenced-JSON pattern: `group(1)` of
`re.search(r'```json\s*(\[.*?\])\s*```', text, re.DOTALL)`. -/
def findFenced : List Char → Option (List Char)
  | [] => none
  | c :: rest =>
    match tryFenceAt (c :: rest) with
    | some g => some g
    | none => findFenced rest

/-- Content strictly before the last `]` of the list, when one exists. -/
def takeToLastClose (l : List Char) : Option (List Char) :=
  match l.reverse.dropWhile (fun c => c ≠ ']') with
  | ']' :: back => some back.reverse
  | _ => none

/-- Whole match of `re.search(r'\[.*\]', text, re.DOTALL)`: from the first
`[` that has a later `]`, greedily to the last `]` of the text. -/
def findBracketSpan : List Char → Option (List Char)
  | [] => none
  | c :: rest =>
    if c = '[' then
      match takeToLastClose rest with
      | some mid => some ('[' :: mid ++ [']'])
      | none => none
    else findBracketSpan rest

/-! ## The three-strategy response parse (src/app.py lines 167-188)

1. `json.loads` on the whole text; on `JSONDecodeError`,
2. the fenced-block regex: if it matches, `json.loads` of `group(1)`; a
   decode failure there propagates to the outer handler (strategy 3 is NOT
   attempted) and returns the error message that embeds the original text;
3. otherwise the loose bracket-span regex, with the same outer handler; if
   no span exists, the no-array error message embeds the original text.

Both failure messages carry the full original response text, so `failure`
records exactly that text. -/

inductive ParseResult where
  | success : Json → ParseResult
  | failure : List Char → ParseResult

def parseGeminiResponseL (t : List Char) : ParseResult :=
  match jsonLoadsL t with
  | some v => .success v
  | none =>
    match findFenced t with
    | some g =>
      match jsonLoadsL g with
      | some v => .success v
      | none => .failure t
    | none =>
      match findBracketSpan t with
      | some g =>
        match jsonLoadsL g with
        | some v => .success v
        | none => .failure t
      | none => .failure t

/-- The fenced-block scenario text from the spec:
`Here you go:` + newline + fenced json array. -/
def fencedScenario : List Char :=
  ("Here you go:\n").data ++ fenceOpen ++ ('\n' ::
    ("[\x7b\"title\":\"Hook A\",\"start\":1.0,\"end\":6.0\x7d]\n").data) ++ fenceTicks

theorem sanity_fenced_scenario :
    parseGeminiResponseL fencedScenario =
      .success (.arr [.obj [("title", .str ("Hook A")),
        ("start", .num (.float ⟨1, 0⟩)), ("end", .num (.float ⟨6, 0⟩))]]) := rfl

/-! ## `analyze_video_with_gemini` (src/app.py lines 109-188)

The Gemini call is an oracle `svc : Nat → CallOutcome` giving the outcome
of each attempt (0-based).  `transient` covers the exceptions caught by the
first handler (`ConnectionResetError`, `ConnectionError`, `OSError`);
`fatal` covers every other exception (second handler).  `time.sleep`
durations are recorded in order.  The function mutates the module-global
`clip_suggestions`; the model threads it explicitly. -/

inductive CallOutcome where
  | ok : List Char → CallOutcome
  | transient : String → CallOutcome
  | fatal : String → CallOutcome

inductive SvcResult where
  | text : List Char → Nat → List Nat → SvcResult
  | connFail : String → Nat → List Nat → SvcResult
  | apiFail : String → Nat → List Nat → SvcResult

/-- The `for attempt in range(max_retries)` loop with
`max_retries = 3`, `retry_delay = 2`: `remaining` counts loop iterations
left (including the current one), `delay` is the current `retry_delay`,
`ds` the sleeps performed so far.  On a transient error with further
iterations left the loop sleeps `delay`, doubles it and continues; on the
last iteration it returns the connection-failure message naming
`max_retries` (the constant 3) and the last cause. -/
def svcLoop (svc : Nat → CallOutcome) :
    Nat → Nat → Nat → List Nat → SvcResult
  | attempt, remaining, delay, ds =>
    match svc attempt, remaining with
    | .ok t, _ => .text t (attempt + 1) ds
    | .fatal m, _ => .apiFail m (attempt + 1) ds
    | .transient m, r + 1 =>
      if r = 0 then .connFail m 3 ds
      else svcLoop svc (attempt + 1) r (delay * 2) (ds ++ [delay])
    | .transient m, 0 => .connFail m 3 ds

/-- Number of service calls actually made. -/
def SvcResult.calls : SvcResult → Nat
  | .text _ n _ => n
  | .connFail _ _ ds => ds.length + 1
  | .apiFail _ n _ => n

/-- Sleeps performed. -/
def SvcResult.delays : SvcResult → List Nat
  | .text _ _ ds => ds
  | .connFail _ _ ds => ds
  | .apiFail _ _ ds => ds

inductive AnalyzeStatus where
  | found : Nat → Json → AnalyzeStatus
  | connFailed : Nat → String → AnalyzeStatus
  | apiFailed : String → AnalyzeStatus
  | parseFailed : List Char → AnalyzeStatus
  | lenCrash : AnalyzeStatus

structure ProposeRun where
  status : AnalyzeStatus
  stored : Json
  delays : List Nat
  attempts : Nat

/-- `analyze_video_with_gemini`, given the service oracle and the current
value of the global `clip_suggestions`.  After a successful decode the
global is assigned BEFORE `len()` is taken for the success message; `len()`
of a non-sized value raises `TypeError` out of the function (modelled as
`lenCrash`, the global already replaced), which can only happen via
strategy 1 since the other two strategies always decode a bracketed
array. -/
def parsePhase (stored : Json) (t : List Char) (n : Nat) (ds : List Nat) : ProposeRun :=
  match parseGeminiResponseL t with
  | .success v =>
    match pyLen v with
    | some k => ⟨.found k v, v, ds, n⟩
    | none => ⟨.lenCrash, v, ds, n⟩
  | .failure orig => ⟨.parseFailed orig, stored, ds, n⟩

def analyze_video_with_gemini (svc : Nat → CallOutcome) (stored : Json) : ProposeRun :=
  match svcLoop svc 0 3 2 [] with
  | .connFail m n ds => ⟨.connFailed n m, stored, ds, ds.length + 1⟩
  | .apiFail m n ds => ⟨.apiFailed m, stored, ds, n⟩
  | .text t n ds => parsePhase stored t n ds

theorem sanity_analyze_all_transient :
    analyze_video_with_gemini
      (fun n => if n = 0 then .transient "r0" else if n = 1 then .transient "r1"
        else .transient "r2") (.arr []) =
      ⟨.connFailed 3 "r2", .arr [], [2, 4], 3⟩ := rfl

/-! ## `extract_clips` (src/app.py lines 190-274)

yt-dlp is an oracle `fetch : String → Except String String` (url to local
path, or the download-exception message).  ffmpeg is an oracle
`enc : EncCall → EncResult` receiving the varying arguments of the `cmd`
vector; the fixed codec arguments (`libx264`, `aac`, `-preset fast`,
`-crf 23`, `-avoid_negative_ts make_zero`, `-force_key_frames`) are
constants of the command and carry no information.  Directory creation is a
filesystem side effect outside the model. -/

/-- The varying ffmpeg arguments: `-ss` value, input path, `-t` value,
output path. -/
structure EncCall where
  ss : String
  input : String
  t : String
  output : String
  deriving Repr, DecidableEq

/-- Outcome of `subprocess.run`: exit status and captured stderr. -/
structure EncResult where
  returncode : Int
  stderr : String

/-- `safe_title` (line 238): keep alphanumerics, space, hyphen,
underscore; `rstrip()`; then `[:30]` — in exactly that order. -/
def keepChar (c : Char) : Bool := pyIsAlnum c || c = ' ' || c = '-' || c = '_'

/-- Python `str.rstrip()` on a character list. -/
def pyRstrip (l : List Char) : List Char := (l.reverse.dropWhile pyWs).reverse

def safeTitleL (title : String) : List Char :=
  (pyRstrip (title.data.filter keepChar)).take 30

/-- Characters of `f"clip_{i+1}_{safe_title}_{start_time}_{end_time}.mp4"`
for 0-based index `i` (the f-string renders the raw decoded JSON start/end
values via `str()`). -/
def clipTag : List Char := ['c', 'l', 'i', 'p', '_']

def clipFilenameL (i : Nat) (title : String) (sv ev : Json) : List Char :=
  clipTag ++ natDecimal (i + 1) ++ '_' :: safeTitleL title ++
    '_' :: (pyStr sv).data ++ '_' :: (pyStr ev).data ++ (".mp4").data

def clipFilename (i : Nat) (title : String) (sv ev : Json) : String :=
  String.mk (clipFilenameL i title sv ev)

/-- `clip["start"]`-style subscription: `KeyError` on a dict without the
key, `TypeError` on any non-dict decoded value (the exact CPython message
texts are abbreviated; no statement below inspects them). -/
def pyGetItem (c : Json) (k : String) : Except String Json :=
  match c with
  | .obj fs =>
    match lookupField fs k with
    | some v => .ok v
    | none => .error ("KeyError: " ++ k)
  | _ => .error ("TypeError: value is not subscriptable by string")

/-- `clip.get(key)` for a decoded dict. -/
def dictGet (c : Json) (k : String) : Option Json :=
  match c with
  | .obj fs => lookupField fs k
  | _ => none

/-- Coerce a decoded value to a Python number for subtraction: ints and
floats are numbers; booleans are ints (`True - False == 1` in Python);
everything else makes `-` raise `TypeError`. -/
def jsonToNum : Json → Option PyNum
  | .num n => some n
  | .bool b => some (.int (if b then 1 else 0))
  | _ => none

/-- Default title `f"Clip {i+1}"` (line 235). -/
def defaultTitleL (i : Nat) : List Char := ('C' :: 'l' :: 'i' :: 'p' :: ' ' :: [])
  ++ natDecimal (i + 1)

/-- Outcome of one loop iteration: an appended artifact path, or an
appended error `f"Clip {i+1}: {e}"` modelled as the 1-based index with the
diagnostic. -/
inductive ClipOutcome where
  | artifact : String → ClipOutcome
  | failed : Nat → String → ClipOutcome

/-- One iteration of the extraction loop (lines 221-266) for 0-based index
`i`: field access, title defaulting, filename derivation, command assembly
(where `end - start` is computed) and the encoder invocation.  Any Python
exception in the body is caught by the per-item handler and recorded as an
error; the returned list holds the encoder invocations made (empty or one).
-/
def processClip (enc : EncCall → EncResult) (videoPath : String) (i : Nat)
    (clip : Json) : ClipOutcome × List EncCall :=
  match pyGetItem clip ("start") with
  | .error e => (.failed (i + 1) e, [])
  | .ok sv =>
    match pyGetItem clip ("end") with
    | .error e => (.failed (i + 1) e, [])
    | .ok ev =>
      match (dictGet clip ("title")).getD (.str (String.mk (defaultTitleL i))) with
      | .str title =>
        let outPath := ("downloads/clips/") ++ clipFilename i title sv ev
        match jsonToNum sv, jsonToNum ev with
        | some sN, some eN =>
          let call : EncCall :=
            ⟨pyStr sv, videoPath, pyNumStr (PyNum.sub eN sN), outPath⟩
          let r := enc call
          if r.returncode = 0 then (.artifact outPath, [call])
          else (.failed (i + 1) r.stderr, [call])
        | _, _ =>
          (.failed (i + 1) ("TypeError: unsupported operand type(s) for -"), [])
      | _ =>
        (.failed (i + 1) ("TypeError: title value is not iterable"), [])

structure BatchOut where
  artifacts : List String
  errors : List (Nat × String)
  calls : List EncCall

/-- The `for i, clip in enumerate(clip_suggestions)` loop starting at
0-based index `i`: accumulates `created_clips` and `errors` in order. -/
def runClipsFrom (enc : EncCall → EncResult) (path : String) :
    Nat → List Json → BatchOut
  | _, [] => ⟨[], [], []⟩
  | i, c :: rest =>
    let step := processClip enc path i c
    let tail := runClipsFrom enc path (i + 1) rest
    match step.1 with
    | .artifact a => ⟨a :: tail.artifacts, tail.errors, step.2 ++ tail.calls⟩
    | .failed n m => ⟨tail.artifacts, (n, m) :: tail.errors, step.2 ++ tail.calls⟩

/-- Process-wide state read and written by `extract_clips`: the globals
`current_video_path` and `clip_suggestions` (here already known to be a
decoded list). -/
structure ExtractState where
  videoPath : Option String
  suggestions : List Json

inductive ExtractStatus where
  | noSuggestions : ExtractStatus
  | downloadFailed : String → ExtractStatus
  | done : ExtractStatus

structure ExtractRun where
  status : ExtractStatus
  artifacts : List String
  errors : List (Nat × String)
  calls : List EncCall
  fetchCalls : Nat
  finalState : ExtractState

/-- `extract_clips(youtube_url)`: empty-suggestion guard, then the yt-dlp
download (invoked unconditionally, with `current_video_path` overwritten on
success), then the per-suggestion loop.  `fetchCalls` counts yt-dlp
invocations in this call. -/
def extract_clips (fetch : String → Except String String)
    (enc : EncCall → EncResult) (st : ExtractState) (url : String) : ExtractRun :=
  if st.suggestions.isEmpty then
    ⟨.noSuggestions, [], [], [], 0, st⟩
  else
    match fetch url with
    | .error e => ⟨.downloadFailed e, [], [], [], 1, st⟩
    | .ok path =>
      let b := runClipsFrom enc path 0 st.suggestions
      ⟨.done, b.artifacts, b.errors, b.calls, 1, ⟨some path, st.suggestions⟩⟩

theorem sanity_process_bad_clip :
    processClip (fun _ => ⟨0, ""⟩) ("v.mp4") 0
      (.obj [("start", .num (.int 5)), ("end", .num (.int 3)), ("title", .str ("Bad"))]) =
      (.artifact ("downloads/clips/clip_1_Bad_5_3.mp4"),
        [⟨"5", "v.mp4", "-2", "downloads/clips/clip_1_Bad_5_3.mp4"⟩]) := rfl

/-! ## Shared helper lemmas -/

/-- The project of a per-item outcome to an artifact. -/
def outcomeArtifact (enc : EncCall → EncResult) (path : String)
    (p : Nat × Json) : Option String :=
  match (processClip enc path p.1 p.2).1 with
  | .artifact a => some a
  | .failed _ _ => none

/-- The project of a per-item outcome to a recorded error. -/
def outcomeError (enc : EncCall → EncResult) (path : String)
    (p : Nat × Json) : Option (Nat × String) :=
  match (processClip enc path p.1 p.2).1 with
  | .artifact _ => none
  | .failed n m => some (n, m)

theorem runClipsFrom_spec (enc : EncCall → EncResult) (path : String) :
    ∀ (suggs : List Json) (i : Nat),
      (runClipsFrom enc path i suggs).artifacts =
        (suggs.enumFrom i).filterMap (outcomeArtifact enc path) ∧
      (runClipsFrom enc path i suggs).errors =
        (suggs.enumFrom i).filterMap (outcomeError enc path) := by
  intro suggs
  induction suggs with
  | nil => intro i; simp [runClipsFrom, List.enumFrom]
  | cons c rest ih =>
    intro i
    rw [runClipsFrom]
    rcases h : (processClip enc path i c).1 with a | ⟨n, m⟩ <;>
      simp [List.enumFrom_cons, List.filterMap_cons, outcomeArtifact, outcomeError, h,
        (ih (i + 1)).1, (ih (i + 1)).2]

/-- An encoder oracle that fails exactly on outputs for the second clip. -/
def encFail2 : EncCall → EncResult := fun c =>
  if ("downloads/clips/clip_2_").data.isPrefixOf c.output.data then
    ⟨1, "encoder diagnostics"⟩
  else ⟨0, ""⟩

def scenSuggs : List Json :=
  [.obj [("start", .num (.int 0)), ("end", .num (.int 5)), ("title", .str ("A"))],
   .obj [("start", .num (.int 10)), ("end", .num (.int 15)), ("title", .str ("B"))],
   .obj [("start", .num (.int 20)), ("end", .num (.int 25)), ("title", .str ("C"))]]

/-- Claim C3: every run of the extraction loop assigns each input
suggestion, in input order, exactly one outcome — an appended artifact path
or an indexed recorded error — so that artifact count plus error count
equals the suggestion count; no per-item failure aborts the remaining
items.  The artifacts and errors lists are exactly the in-order projections
of the per-item outcomes, and in the spec scenario where the encoder exits
non-zero for suggestion 2 of 3 the run returns 2 artifacts and 1 error
tagged with index 2. -/
theorem claim_C3_accounting :
    (∀ (enc : EncCall → EncResult) (path : String) (suggs : List Json) (i : Nat),
      (runClipsFrom enc path i suggs).artifacts.length +
        (runClipsFrom enc path i suggs).errors.length = suggs.length ∧
      (runClipsFrom enc path i suggs).artifacts =
        (suggs.enumFrom i).filterMap (outcomeArtifact enc path) ∧
      (runClipsFrom enc path i suggs).errors =
        (suggs.enumFrom i).filterMap (outcomeError enc path)) ∧
    (runClipsFrom encFail2 ("v.mp4") 0 scenSuggs).artifacts.length = 2 ∧
    (runClipsFrom encFail2 ("v.mp4") 0 scenSuggs).errors =
      [(2, "encoder diagnostics")] := by
  refine ⟨?_, rfl, rfl⟩
  intro enc path suggs
  induction suggs with
  | nil => intro i; simp [runClipsFrom, List.enumFrom]
  | cons c rest ih =>
    intro i
    refine ⟨?_, (runClipsFrom_spec enc path (c :: rest) i).1,
      (runClipsFrom_spec enc path (c :: rest) i).2⟩
    rw [runClipsFrom]
    have hacc := (ih (i + 1)).1
    rcases h : (processClip enc path i c).1 with a | ⟨n, m⟩ <;>
      simp [h] <;> omega

/-- Cancellation through the underscore separator: two digit-only prefixes
followed by `_` and arbitrary tails are equal only if the prefixes are. -/
theorem digit_underscore_inj :
    ∀ (xs ys a b : List Char),
      (∀ c ∈ xs, 48 ≤ c.toNat ∧ c.toNat ≤ 57) →
      (∀ c ∈ ys, 48 ≤ c.toNat ∧ c.toNat ≤ 57) →
      xs ++ '_' :: a = ys ++ '_' :: b → xs = ys := by
  intro xs
  induction xs with
  | nil =>
    intro ys a b _ hy h
    cases ys with
    | nil => rfl
    | cons y ts =>
      simp only [List.nil_append, List.cons_append, List.cons.injEq] at h
      have := hy y (by simp)
      have : ('_').toNat = y.toNat := congrArg Char.toNat h.1
      simp at this
      omega
  | cons x xs ih =>
    intro ys a b hx hy h
    cases ys with
    | nil =>
      simp only [List.nil_append, List.cons_append, List.cons.injEq] at h
      have := hx x (by simp)
      have : x.toNat = ('_').toNat := congrArg Char.toNat h.1
      simp at this
      omega
    | cons y ts =>
      simp only [List.cons_append, List.cons.injEq] at h
      have : xs = ts :=
        ih ts a b (fun c hc => hx c (by simp [hc])) (fun c hc => hy c (by simp [hc])) h.2
      simp [h.1, this]

/-- Claim C10: within one batch, suggestions at distinct positions always
derive distinct output filenames, whatever their titles and start/end
values, because the decimal 1-based index between the `clip_` prefix and
the following underscore cannot coincide for two different indices. -/
theorem claim_C10_filenames_distinct :
    ∀ (i j : Nat) (ti tj : String) (si sj ei ej : Json),
      i ≠ j → clipFilename i ti si ei ≠ clipFilename j tj sj ej := by
  intro i j ti tj si sj ei ej hij heq
  apply hij
  have hdata : clipFilenameL i ti si ei = clipFilenameL j tj sj ej :=
    congrArg String.data heq
  unfold clipFilenameL at hdata
  simp only [List.append_assoc, List.cons_append] at hdata
  have h2 := List.append_cancel_left hdata
  have h3 := digit_underscore_inj _ _ _ _
    (natDecimal_all_digit (i + 1)) (natDecimal_all_digit (j + 1)) h2
  have := natDecimal_injective h3
  omega

/-- Witness for claim C10 at concrete inputs: indices 1 and 2 with
identical metadata give different filenames. -/
theorem claim_C10_witness :
    clipFilename 0 ("Same") (.num (.int 1)) (.num (.int 2)) ≠
      clipFilename 1 ("Same") (.num (.int 1)) (.num (.int 2)) :=
  claim_C10_filenames_distinct 0 1 ("Same") ("Same") (.num (.int 1)) (.num (.int 1))
    (.num (.int 2)) (.num (.int 2)) (by omega)

theorem parsePhase_attempts (stored : Json) (t : List Char) (n : Nat) (ds : List Nat) :
    (parsePhase stored t n ds).attempts = n := by
  unfold parsePhase
  rcases parseGeminiResponseL t with v | o
  · rcases h : pyLen v with - | k <;> simp [h]
  · rfl

theorem parsePhase_delays (stored : Json) (t : List Char) (n : Nat) (ds : List Nat) :
    (parsePhase stored t n ds).delays = ds := by
  unfold parsePhase
  rcases parseGeminiResponseL t with v | o
  · rcases h : pyLen v with - | k <;> simp [h]
  · rfl

/-- The sleep sequence the retry loop has performed before attempt `k`. -/
def backoffDelays : Nat → List Nat
  | 0 => []
  | 1 => [2]
  | _ => [2, 4]

/-- Claim C4: the propose path makes at most 3 service attempts; a
non-transient failure at attempt `k` (after only transient failures)
returns the API error immediately, with the exponential backoff sleeps
2, 4 performed only for the preceding transient retries; and three
transient failures exhaust the retries, sleeping 2 then 4, and return the
connection-failure result naming 3 attempts and carrying the last
underlying cause. -/
theorem claim_C4_retry_policy :
    (∀ (svc : Nat → CallOutcome) (st : Json),
      (analyze_video_with_gemini svc st).attempts ≤ 3) ∧
    (∀ (svc : Nat → CallOutcome) (st : Json) (k : Nat) (m : String),
      k < 3 → (∀ j, j < k → ∃ mj, svc j = .transient mj) → svc k = .fatal m →
      analyze_video_with_gemini svc st =
        ⟨.apiFailed m, st, backoffDelays k, k + 1⟩) ∧
    (∀ (svc : Nat → CallOutcome) (st : Json),
      (∀ j, j < 3 → ∃ mj, svc j = .transient mj) →
      ∃ m2, svc 2 = .transient m2 ∧
        analyze_video_with_gemini svc st = ⟨.connFailed 3 m2, st, [2, 4], 3⟩) := by
  refine ⟨?_, ?_, ?_⟩
  · intro svc st
    unfold analyze_video_with_gemini
    rcases h0 : svc 0 with t0 | m0 | m0
    · rw [show svcLoop svc 0 3 2 [] = .text t0 1 [] from by simp [svcLoop, h0]]
      simp [parsePhase_attempts]
    · rcases h1 : svc 1 with t1 | m1 | m1
      · rw [show svcLoop svc 0 3 2 [] = .text t1 2 [2] from by simp [svcLoop, h0, h1]]
        simp [parsePhase_attempts]
      · rcases h2 : svc 2 with t2 | m2 | m2
        · rw [show svcLoop svc 0 3 2 [] = .text t2 3 [2, 4] from by
            simp [svcLoop, h0, h1, h2]]
          simp [parsePhase_attempts]
        · rw [show svcLoop svc 0 3 2 [] = .connFail m2 3 [2, 4] from by
            simp [svcLoop, h0, h1, h2]]
          simp
        · rw [show svcLoop svc 0 3 2 [] = .apiFail m2 3 [2, 4] from by
            simp [svcLoop, h0, h1, h2]]
      · rw [show svcLoop svc 0 3 2 [] = .apiFail m1 2 [2] from by simp [svcLoop, h0, h1]]
        simp
    · rw [show svcLoop svc 0 3 2 [] = .apiFail m0 1 [] from by simp [svcLoop, h0]]
      simp
  · intro svc st k m hk htrans hfatal
    interval_cases k
    · unfold analyze_video_with_gemini
      rw [show svcLoop svc 0 3 2 [] = .apiFail m 1 [] from by simp [svcLoop, hfatal]]
      rfl
    · obtain ⟨m0, h0⟩ := htrans 0 (by omega)
      unfold analyze_video_with_gemini
      rw [show svcLoop svc 0 3 2 [] = .apiFail m 2 [2] from by simp [svcLoop, h0, hfatal]]
      rfl
    · obtain ⟨m0, h0⟩ := htrans 0 (by omega)
      obtain ⟨m1, h1⟩ := htrans 1 (by omega)
      unfold analyze_video_with_gemini
      rw [show svcLoop svc 0 3 2 [] = .apiFail m 3 [2, 4] from by
        simp [svcLoop, h0, h1, hfatal]]
      rfl
  · intro svc st htrans
    obtain ⟨m0, h0⟩ := htrans 0 (by omega)
    obtain ⟨m1, h1⟩ := htrans 1 (by omega)
    obtain ⟨m2, h2⟩ := htrans 2 (by omega)
    refine ⟨m2, h2, ?_⟩
    unfold analyze_video_with_gemini
    rw [show svcLoop svc 0 3 2 [] = .connFail m2 3 [2, 4] from by
      simp [svcLoop, h0, h1, h2]]
    rfl

/-- Three connection resets, then (hypothetically) anything. -/
def svcAllTransientW : Nat → CallOutcome := fun n =>
  if n = 0 then .transient "reset 0" else if n = 1 then .transient "reset 1"
  else .transient "reset 2"

/-- An immediately fatal service (for example invalid credentials). -/
def svcFatalW : Nat → CallOutcome := fun _ => .fatal "invalid credentials"

/-- Witness for claim C4: the all-transient oracle exhausts 3 attempts with
backoff sleeps 2 then 4 and reports the last cause; the immediately fatal
oracle returns at once with no sleeps. -/
theorem claim_C4_witness :
    (analyze_video_with_gemini svcAllTransientW (.arr []) =
      ⟨.connFailed 3 "reset 2", .arr [], [2, 4], 3⟩) ∧
    (analyze_video_with_gemini svcFatalW (.arr []) =
      ⟨.apiFailed "invalid credentials", .arr [], [], 1⟩) := by
  constructor
  · obtain ⟨m2, hm2, h⟩ := claim_C4_retry_policy.2.2 svcAllTransientW (.arr [])
      (by intro j hj; interval_cases j
          · exact ⟨"reset 0", rfl⟩
          · exact ⟨"reset 1", rfl⟩
          · exact ⟨"reset 2", rfl⟩)
    have : m2 = "reset 2" := by
      have := hm2
      simp [svcAllTransientW] at this
      exact this.symm
    rw [this] at h
    exact h
  · exact claim_C4_retry_policy.2.1 svcFatalW (.arr []) 0 "invalid credentials"
      (by omega) (by intro j hj; omega) rfl

/-- Claim C5: whenever the propose action fails — connection failure after
exhausted retries, a non-transient API error, or no parsable JSON found —
the previously stored suggestion set is left untouched; on a successful
parse the stored set is replaced by exactly the decoded value, and the
stored set changes only when a decode succeeded on the response text. -/
theorem claim_C5_stored_set :
    ∀ (svc : Nat → CallOutcome) (st : Json),
      (∀ n m, (analyze_video_with_gemini svc st).status = .connFailed n m →
        (analyze_video_with_gemini svc st).stored = st) ∧
      (∀ m, (analyze_video_with_gemini svc st).status = .apiFailed m →
        (analyze_video_with_gemini svc st).stored = st) ∧
      (∀ t, (analyze_video_with_gemini svc st).status = .parseFailed t →
        (analyze_video_with_gemini svc st).stored = st) ∧
      (∀ k v, (analyze_video_with_gemini svc st).status = .found k v →
        (analyze_video_with_gemini svc st).stored = v) ∧
      ((analyze_video_with_gemini svc st).stored ≠ st →
        ∃ t n ds v, svcLoop svc 0 3 2 [] = .text t n ds ∧
          parseGeminiResponseL t = .success v ∧
          (analyze_video_with_gemini svc st).stored = v) := by
  intro svc st
  rcases hs : svcLoop svc 0 3 2 [] with ⟨t, n, ds⟩ | ⟨m, n, ds⟩ | ⟨m, n, ds⟩
  · have ha : analyze_video_with_gemini svc st = parsePhase st t n ds := by
      unfold analyze_video_with_gemini
      rw [hs]
    rw [ha]
    rcases hp : parseGeminiResponseL t with v | o
    · rcases hl : pyLen v with - | k
      · have hb : parsePhase st t n ds = ⟨.lenCrash, v, ds, n⟩ := by
          unfold parsePhase
          simp only [hp, hl]
        rw [hb]
        refine ⟨?_, ?_, ?_, ?_, ?_⟩
        · intro a b h
          cases h
        · intro a h
          cases h
        · intro a h
          cases h
        · intro a b h
          cases h
        · intro h
          exact ⟨t, n, ds, v, rfl, hp, rfl⟩
      · have hb : parsePhase st t n ds = ⟨.found k v, v, ds, n⟩ := by
          unfold parsePhase
          simp only [hp, hl]
        rw [hb]
        refine ⟨?_, ?_, ?_, ?_, ?_⟩
        · intro a b h
          cases h
        · intro a h
          cases h
        · intro a h
          cases h
        · intro a b h
          injection h with h1 h2
        · intro h
          exact ⟨t, n, ds, v, rfl, hp, rfl⟩
    · have hb : parsePhase st t n ds = ⟨.parseFailed o, st, ds, n⟩ := by
        unfold parsePhase
        simp only [hp]
      rw [hb]
      refine ⟨?_, ?_, ?_, ?_, ?_⟩
      · intro a b h
        cases h
      · intro a h
        cases h
      · intro a h
        rfl
      · intro a b h
        cases h
      · intro h
        exact absurd rfl h
  · have ha : analyze_video_with_gemini svc st =
        ⟨.connFailed n m, st, ds, ds.length + 1⟩ := by
      unfold analyze_video_with_gemini
      rw [hs]
    rw [ha]
    refine ⟨?_, ?_, ?_, ?_, ?_⟩
    · intro a b h
      rfl
    · intro a h
      cases h
    · intro a h
      cases h
    · intro a b h
      cases h
    · intro h
      exact absurd rfl h
  · have ha : analyze_video_with_gemini svc st = ⟨.apiFailed m, st, ds, n⟩ := by
      unfold analyze_video_with_gemini
      rw [hs]
    rw [ha]
    refine ⟨?_, ?_, ?_, ?_, ?_⟩
    · intro a b h
      cases h
    · intro a h
      rfl
    · intro a h
      cases h
    · intro a b h
      cases h
    · intro h
      exact absurd rfl h

/-- A service returning a valid bare-array response on the first attempt. -/
def svcOkW : Nat → CallOutcome := fun _ => .ok (("[]").data)

/-- Witness for claim C5: a fatal service failure leaves the stored set at
its previous value, and a successful parse replaces it with the decoded
array. -/
theorem claim_C5_witness :
    (analyze_video_with_gemini svcFatalW (.str ("old"))).stored = .str ("old") ∧
    (analyze_video_with_gemini svcOkW (.str ("old"))).stored = .arr [] := by
  constructor
  · exact (claim_C5_stored_set svcFatalW (.str ("old"))).2.1 "invalid credentials" rfl
  · exact (claim_C5_stored_set svcOkW (.str ("old"))).2.2.2.1 0 (.arr []) rfl

/-! ## Claims about `extract_clips` proper -/

/-- The encoder-call fields that do not name the input file: seek value,
duration value, output path. -/
def dropInput (c : EncCall) : String × String × String := (c.ss, c.t, c.output)

theorem processClip_calls_path_indep (enc : EncCall → EncResult)
    (pA pB : String) (i : Nat) (clip : Json) :
    (processClip enc pA i clip).2.map dropInput =
      (processClip enc pB i clip).2.map dropInput := by
  unfold processClip
  rcases pyGetItem clip ("start") with e | sv
  · rfl
  · rcases pyGetItem clip ("end") with e | ev
    · rfl
    · rcases (dictGet clip ("title")).getD (.str (String.mk (defaultTitleL i))) with
        - | b | nn | title | xs | fs <;> try rfl
      rcases h1 : jsonToNum sv with - | sN <;> rcases h2 : jsonToNum ev with - | eN <;>
        simp only [h1, h2] <;> first
          | rfl
          | (split <;> (split <;> simp [dropInput]))

theorem runClipsFrom_calls_cons (enc : EncCall → EncResult) (path : String)
    (i : Nat) (c : Json) (rest : List Json) :
    (runClipsFrom enc path i (c :: rest)).calls =
      (processClip enc path i c).2 ++ (runClipsFrom enc path (i + 1) rest).calls := by
  rw [runClipsFrom]
  rcases (processClip enc path i c).1 with a | ⟨n, m⟩ <;> rfl

theorem runClipsFrom_calls_path_indep (enc : EncCall → EncResult) :
    ∀ (suggs : List Json) (pA pB : String) (i : Nat),
      (runClipsFrom enc pA i suggs).calls.map dropInput =
        (runClipsFrom enc pB i suggs).calls.map dropInput := by
  intro suggs
  induction suggs with
  | nil => intro pA pB i; rfl
  | cons c rest ih =>
    intro pA pB i
    rw [runClipsFrom_calls_cons, runClipsFrom_calls_cons, List.map_append,
      List.map_append, processClip_calls_path_indep enc pA pB i c, ih pA pB (i + 1)]

/-- Claim C9: two extract invocations that differ only in the URL argument,
against the same stored suggestion set, and whose downloads both succeed,
submit the identical sequence of cut parameters (seek value, duration
value, output path — hence (start, end, title)) to the encoder: the cuts
depend only on the stored suggestions, never on the URL. -/
theorem claim_C9_url_independent_cuts :
    ∀ (st : ExtractState) (urlA urlB : String)
      (fetch : String → Except String String) (enc : EncCall → EncResult)
      (pA pB : String),
      fetch urlA = .ok pA → fetch urlB = .ok pB →
      (extract_clips fetch enc st urlA).calls.map dropInput =
        (extract_clips fetch enc st urlB).calls.map dropInput := by
  intro st urlA urlB fetch enc pA pB hA hB
  unfold extract_clips
  by_cases hempty : st.suggestions.isEmpty
  · simp [hempty]
  · simp only [hempty, if_false, hA, hB]
    exact runClipsFrom_calls_path_indep enc st.suggestions pA pB 0

/-- A fetch oracle mapping every URL to a fixed local file. -/
def fetchW : String → Except String String := fun _ => .ok ("downloads/vid.mp4")

/-- An encoder oracle that always succeeds. -/
def encOKW : EncCall → EncResult := fun _ => ⟨0, ""⟩

def goodClipW : Json :=
  .obj [("start", .num (.int 0)), ("end", .num (.int 5)), ("title", .str ("A"))]

/-- Witness for claim C9 at concrete inputs: the same suggestion set
extracted against two different URLs submits identical cut parameters. -/
theorem claim_C9_witness :
    (extract_clips fetchW encOKW ⟨none, [goodClipW]⟩ ("url-one")).calls.map dropInput =
      (extract_clips fetchW encOKW ⟨none, [goodClipW]⟩ ("url-two")).calls.map dropInput :=
  claim_C9_url_independent_cuts ⟨none, [goodClipW]⟩ ("url-one") ("url-two")
    fetchW encOKW ("downloads/vid.mp4") ("downloads/vid.mp4") rfl rfl

/-- Counterexample to claim C8 as stated: after a successful extraction for
a URL (so media has been fetched for the current source and the stored path
records it), a second `extract_clips` call with the very same URL invokes
the fetcher again — the claimed run-only-if-not-yet-fetched condition does
not exist in the code. -/
theorem claim_C8_counterexample :
    (extract_clips fetchW encOKW ⟨none, [goodClipW]⟩ ("u")).finalState.videoPath =
      some ("downloads/vid.mp4") ∧
    (extract_clips fetchW encOKW
      (extract_clips fetchW encOKW ⟨none, [goodClipW]⟩ ("u")).finalState
      ("u")).fetchCalls = 1 := ⟨rfl, rfl⟩

/-- Claim C8 as amended: with an empty stored suggestion set, extract
errors without fetching or invoking the encoder and leaves the state
unchanged; with a non-empty set it always invokes the fetcher (exactly
once, regardless of any earlier fetch — any skip-if-already-downloaded
behaviour is internal to the fetcher); and a fetch failure surfaces the
fetch error without any encoder invocation and leaves the state
unchanged. -/
theorem claim_C8_amended :
    ∀ (fetch : String → Except String String) (enc : EncCall → EncResult)
      (st : ExtractState) (url : String),
      (st.suggestions = [] →
        extract_clips fetch enc st url = ⟨.noSuggestions, [], [], [], 0, st⟩) ∧
      (st.suggestions ≠ [] → (extract_clips fetch enc st url).fetchCalls = 1) ∧
      (∀ e, st.suggestions ≠ [] → fetch url = .error e →
        extract_clips fetch enc st url = ⟨.downloadFailed e, [], [], [], 1, st⟩) := by
  intro fetch enc st url
  refine ⟨?_, ?_, ?_⟩
  · intro h
    unfold extract_clips
    simp [h]
  · intro h
    unfold extract_clips
    rw [if_neg (by simpa [List.isEmpty_iff] using h)]
    rcases fetch url with e | p <;> rfl
  · intro e h hf
    unfold extract_clips
    rw [if_neg (by simpa [List.isEmpty_iff] using h), hf]

/-- A fetch oracle that always fails. -/
def fetchFailW : String → Except String String := fun _ => .error ("HTTP 403")

/-- Witness for the amended claim C8: empty set short-circuits with no
fetch; non-empty set fetches once; a failing fetch surfaces the error with
untouched state and no encoder calls. -/
theorem claim_C8_witness :
    (extract_clips fetchW encOKW ⟨none, []⟩ ("u") =
      ⟨.noSuggestions, [], [], [], 0, ⟨none, []⟩⟩) ∧
    ((extract_clips fetchW encOKW ⟨none, [goodClipW]⟩ ("u")).fetchCalls = 1) ∧
    (extract_clips fetchFailW encOKW ⟨none, [goodClipW]⟩ ("u") =
      ⟨.downloadFailed "HTTP 403", [], [], [], 1, ⟨none, [goodClipW]⟩⟩) :=
  ⟨(claim_C8_amended fetchW encOKW ⟨none, []⟩ ("u")).1 rfl,
   (claim_C8_amended fetchW encOKW ⟨none, [goodClipW]⟩ ("u")).2.1 (by simp),
   (claim_C8_amended fetchFailW encOKW ⟨none, [goodClipW]⟩ ("u")).2.2 "HTTP 403"
     (by simp) rfl⟩

/-- The spec scenario response text `[{"start":5,"end":3,"title":"Bad"}]`. -/
def badClipText : List Char := ("[\x7b\"start\":5,\"end\":3,\"title\":\"Bad\"\x7d]").data

def badClipW : Json :=
  .obj [("start", .num (.int 5)), ("end", .num (.int 3)), ("title", .str ("Bad"))]

/-- Counterexample to claim C2 as stated: the one-element response with
`start=5, end=3` parses with no recorded validation error, and the element
is NOT excluded from extraction — the encoder is invoked for it (with
duration string `-2`), and with a succeeding encoder the run records one
artifact and zero errors, instead of the claimed empty effective set plus
one validation error. -/
theorem claim_C2_counterexample :
    parseGeminiResponseL badClipText = .success (.arr [badClipW]) ∧
    (runClipsFrom encOKW ("v.mp4") 0 [badClipW]).artifacts =
      ["downloads/clips/clip_1_Bad_5_3.mp4"] ∧
    (runClipsFrom encOKW ("v.mp4") 0 [badClipW]).errors = [] ∧
    (runClipsFrom encOKW ("v.mp4") 0 [badClipW]).calls =
      [⟨"5", "v.mp4", "-2", "downloads/clips/clip_1_Bad_5_3.mp4"⟩] :=
  ⟨rfl, rfl, rfl, rfl⟩

/-- Claim C2 as amended: an element with `end ≤ start` is NOT excluded and
no validation error is recorded for it; the element is submitted to the
encoder exactly once, with a non-positive duration value (`end - start`),
and it is recorded as an error precisely when the encoder exits non-zero —
other elements are unaffected either way (their processing is the
independent per-element function shown in claim C3). -/
theorem claim_C2_amended :
    ∀ (enc : EncCall → EncResult) (path : String) (i : Nat)
      (fs : List (String × Json)) (sN eN : PyNum),
      lookupField fs ("start") = some (.num sN) →
      lookupField fs ("end") = some (.num eN) →
      (∀ t, lookupField fs ("title") = some t → ∃ s, t = .str s) →
      eN.toRat ≤ sN.toRat →
      ∃ c : EncCall,
        (processClip enc path i (.obj fs)).2 = [c] ∧
        c.t = pyNumStr (PyNum.sub eN sN) ∧
        (PyNum.sub eN sN).toRat ≤ 0 ∧
        ((enc c).returncode = 0 →
          (processClip enc path i (.obj fs)).1 = .artifact c.output) ∧
        ((enc c).returncode ≠ 0 →
          (processClip enc path i (.obj fs)).1 = .failed (i + 1) (enc c).stderr) := by
  intro enc path i fs sN eN hstart hend htitle hle
  have hdur : (PyNum.sub eN sN).toRat ≤ 0 := by
    rw [PyNum_sub_toRat]
    linarith
  unfold processClip
  simp only [pyGetItem, dictGet, hstart, hend]
  rcases ht : lookupField fs ("title") with - | tv
  · simp only [Option.getD_none]
    simp only [jsonToNum]
    refine ⟨⟨pyStr (.num sN), path, pyNumStr (PyNum.sub eN sN),
        ("downloads/clips/") ++
          clipFilename i (String.mk (defaultTitleL i)) (.num sN) (.num eN)⟩,
      ?_, rfl, hdur, ?_, ?_⟩
    · split <;> rfl
    · intro h
      rw [if_pos h]
    · intro h
      rw [if_neg h]
  · obtain ⟨sstr, rfl⟩ := htitle tv ht
    simp only [Option.getD_some]
    simp only [jsonToNum]
    refine ⟨⟨pyStr (.num sN), path, pyNumStr (PyNum.sub eN sN),
        ("downloads/clips/") ++ clipFilename i sstr (.num sN) (.num eN)⟩,
      ?_, rfl, hdur, ?_, ?_⟩
    · split <;> rfl
    · intro h
      rw [if_pos h]
    · intro h
      rw [if_neg h]

/-- An encoder oracle that always fails. -/
def encFailW : EncCall → EncResult := fun _ => ⟨1, "boom"⟩

/-- Witness for the amended claim C2 at the `start=5, end=3` element with a
failing encoder: one encoder call with duration `-2` is made and the
element is recorded as error 1. -/
theorem claim_C2_witness :
    ∃ c : EncCall,
      (processClip encFailW ("v.mp4") 0 badClipW).2 = [c] ∧
      c.t = pyNumStr (PyNum.sub (.int 3) (.int 5)) ∧
      (PyNum.sub (.int 3) (.int 5)).toRat ≤ 0 ∧
      ((encFailW c).returncode = 0 →
        (processClip encFailW ("v.mp4") 0 badClipW).1 = .artifact c.output) ∧
      ((encFailW c).returncode ≠ 0 →
        (processClip encFailW ("v.mp4") 0 badClipW).1 =
          .failed 1 (encFailW c).stderr) :=
  claim_C2_amended encFailW ("v.mp4") 0
    [("start", .num (.int 5)), ("end", .num (.int 3)), ("title", .str ("Bad"))]
    (.int 5) (.int 3) rfl rfl
    (fun t ht => ⟨"Bad", by cases ht; rfl⟩)
    (by norm_num [PyNum.toRat])

/-- A title whose filtered form is 31 characters: `a`, 29 spaces, `b`. -/
def trickyTitle : String := String.mk ('a' :: (List.replicate 29 ' ' ++ ['b']))

/-- Counterexample to claim C7 as stated: the code runs `rstrip()` BEFORE
the 30-character truncation, so truncation can re-expose trailing spaces;
for this title the sanitized fragment is `a` followed by 29 spaces — its
last character is a space, so the sanitized title does not have trailing
whitespace trimmed. -/
theorem claim_C7_counterexample :
    safeTitleL trickyTitle = 'a' :: List.replicate 29 ' ' ∧
    (safeTitleL trickyTitle).getLast? = some ' ' := ⟨rfl, rfl⟩

theorem mem_pyRstrip {c : Char} {l : List Char} (h : c ∈ pyRstrip l) : c ∈ l := by
  unfold pyRstrip at h
  rw [List.mem_reverse] at h
  exact List.mem_reverse.mp ((List.dropWhile_sublist pyWs).subset h)

/-- Claim C7 as amended: the sanitized title keeps only alphanumerics,
spaces, hyphens and underscores and is at most 30 characters; trailing
whitespace is trimmed BEFORE the truncation to 30 characters, so the
absence of trailing whitespace is guaranteed (only) when the filtered title
already fits in 30 characters; and the derived filename is exactly the
fixed prefix, the decimal 1-based index, the sanitized title and the raw
rendered start/end values joined by underscores (hence identical inputs
always derive the identical filename). -/
theorem claim_C7_amended :
    ∀ (i : Nat) (t : String) (sv ev : Json),
      (∀ c ∈ safeTitleL t, keepChar c = true) ∧
      (safeTitleL t).length ≤ 30 ∧
      ((t.data.filter keepChar).length ≤ 30 →
        ∀ c, (safeTitleL t).getLast? = some c → pyWs c = false) ∧
      clipFilename i t sv ev =
        String.mk (clipTag ++ natDecimal (i + 1) ++ '_' :: safeTitleL t ++
          '_' :: (pyStr sv).data ++ '_' :: (pyStr ev).data ++ (".mp4").data) := by
  intro i t sv ev
  refine ⟨?_, ?_, ?_, rfl⟩
  · intro c hc
    unfold safeTitleL at hc
    have h1 : c ∈ pyRstrip (t.data.filter keepChar) :=
      (List.take_subset 30 _) hc
    have h2 : c ∈ t.data.filter keepChar := mem_pyRstrip h1
    exact (List.mem_filter.mp h2).2
  · exact List.length_take_le 30 _
  · intro hlen c hc
    unfold safeTitleL at hc
    have hr : (pyRstrip (t.data.filter keepChar)).length ≤ 30 := by
      unfold pyRstrip
      calc ((t.data.filter keepChar).reverse.dropWhile pyWs).reverse.length
          = ((t.data.filter keepChar).reverse.dropWhile pyWs).length := by
            rw [List.length_reverse]
        _ ≤ (t.data.filter keepChar).reverse.length :=
            (List.dropWhile_sublist pyWs).length_le
        _ = (t.data.filter keepChar).length := by rw [List.length_reverse]
        _ ≤ 30 := hlen
    rw [List.take_of_length_le hr] at hc
    unfold pyRstrip at hc
    rw [List.getLast?_reverse] at hc
    have := List.head?_dropWhile_not pyWs (t.data.filter keepChar).reverse
    rw [hc] at this
    exact this

/-- Witness for the amended claim C7 at a concrete short title: every kept
character is in the allowed set, the fragment is short, its last character
is not whitespace, and the filename has the stated shape. -/
theorem claim_C7_witness :
    (∀ c ∈ safeTitleL ("My Clip - 1!"), keepChar c = true) ∧
    (safeTitleL ("My Clip - 1!")).length ≤ 30 ∧
    pyWs '1' = false ∧
    clipFilename 0 ("My Clip - 1!") (.num (.int 2)) (.num (.int 7)) =
      String.mk (clipTag ++ natDecimal 1 ++ '_' :: safeTitleL ("My Clip - 1!") ++
        '_' :: (pyStr (.num (.int 2))).data ++ '_' :: (pyStr (.num (.int 7))).data ++
        (".mp4").data) :=
  ⟨(claim_C7_amended 0 ("My Clip - 1!") (.num (.int 2)) (.num (.int 7))).1,
   (claim_C7_amended 0 ("My Clip - 1!") (.num (.int 2)) (.num (.int 7))).2.1,
   (claim_C7_amended 0 ("My Clip - 1!") (.num (.int 2)) (.num (.int 7))).2.2.1
     (by decide) '1' rfl,
   (claim_C7_amended 0 ("My Clip - 1!") (.num (.int 2)) (.num (.int 7))).2.2.2⟩

/-- The fields of the single suggestion decoded from the fenced scenario. -/
def hookFields : List (String × Json) :=
  [("title", .str ("Hook A")), ("start", .num (.float ⟨1, 0⟩)),
   ("end", .num (.float ⟨6, 0⟩))]

/-- Counterexample to claim C6 as stated: parsing the fenced scenario
yields the one suggestion with title `Hook A`, start 1.0, end 6.0 — but no
description field at all: nothing in the code ever reads or defaults
`description`, so the parsed element does not carry `description = ""`. -/
theorem claim_C6_counterexample :
    parseGeminiResponseL fencedScenario = .success (.arr [.obj hookFields]) ∧
    lookupField hookFields ("description") = none ∧
    dictGet (.obj hookFields) ("description") ≠ some (.str ("")) :=
  ⟨rfl, rfl, fun h => by cases h⟩

/-- Claim C6 as amended: the fenced scenario parses to the single element
with title `Hook A`, start 1.0, end 6.0 and no stored description (the
code never reads or defaults `description`); and a parsed element with no
`title` key is extracted under the default title `Clip {1-based index}`,
which is embedded in the derived output filename handed to the encoder. -/
theorem claim_C6_amended :
    (parseGeminiResponseL fencedScenario = .success (.arr [.obj hookFields]) ∧
      lookupField hookFields ("title") = some (.str ("Hook A")) ∧
      lookupField hookFields ("start") = some (.num (.float ⟨1, 0⟩)) ∧
      lookupField hookFields ("end") = some (.num (.float ⟨6, 0⟩)) ∧
      lookupField hookFields ("description") = none) ∧
    (∀ (enc : EncCall → EncResult) (path : String) (i : Nat)
      (fs : List (String × Json)) (sN eN : PyNum),
      lookupField fs ("title") = none →
      lookupField fs ("start") = some (.num sN) →
      lookupField fs ("end") = some (.num eN) →
      ∃ c : EncCall,
        (processClip enc path i (.obj fs)).2 = [c] ∧
        c.output = ("downloads/clips/") ++
          clipFilename i (String.mk (defaultTitleL i)) (.num sN) (.num eN)) := by
  refine ⟨⟨rfl, rfl, rfl, rfl, rfl⟩, ?_⟩
  intro enc path i fs sN eN htitle hstart hend
  unfold processClip
  simp only [pyGetItem, dictGet, hstart, hend, htitle, Option.getD_none]
  simp only [jsonToNum]
  refine ⟨⟨pyStr (.num sN), path, pyNumStr (PyNum.sub eN sN),
      ("downloads/clips/") ++
        clipFilename i (String.mk (defaultTitleL i)) (.num sN) (.num eN)⟩,
    ?_, rfl⟩
  split <;> rfl

/-- Witness for the amended claim C6: a concrete element with no title goes
to the encoder under the filename embedding `Clip 1`. -/
theorem claim_C6_witness :
    ∃ c : EncCall,
      (processClip encOKW ("v.mp4") 0
        (.obj [("start", .num (.int 4)), ("end", .num (.int 9))])).2 = [c] ∧
      c.output = ("downloads/clips/") ++
        clipFilename 0 (String.mk (defaultTitleL 0)) (.num (.int 4)) (.num (.int 9)) :=
  claim_C6_amended.2 encOKW ("v.mp4") 0
    [("start", .num (.int 4)), ("end", .num (.int 9))] (.int 4) (.int 9)
    rfl rfl rfl

/-! ## Claim C1: the three-strategy parse -/

/-- The text of a bracketed array: `[` + mid + `]`. -/
def arrText (mid : List Char) : List Char := '[' :: (mid ++ [']'])

/-- Counterexample text: prose whose embedded JSON array contains a
string literal that LOOKS like a fenced json block with invalid content. -/
def cexC1Text : List Char := ("say [1, 2, \"```json [x] ```\"] end").data

/-- The first-to-last bracket span of the counterexample text. -/
def cexC1Span : List Char := ("[1, 2, \"```json [x] ```\"]").data

/-- Counterexample to claim C1 as stated: on this text strategy 1 fails and
the fenced-block regex matches (inside the string literal) with group
`[x]`, whose decode failure aborts the chain — the code returns a
ParseError even though strategy 3, the first greedy `[...]` span, decodes
to a JSON array; the same array presented bare parses successfully, so the
bare and prose presentations disagree as well. -/
theorem claim_C1_counterexample :
    parseGeminiResponseL cexC1Text = .failure cexC1Text ∧
    findFenced cexC1Text = some (("[x]").data) ∧
    findBracketSpan cexC1Text = some cexC1Span ∧
    jsonLoadsL cexC1Span =
      some (.arr [.num (.int 1), .num (.int 2), .str ("```json [x] ```")]) ∧
    parseGeminiResponseL cexC1Span =
      .success (.arr [.num (.int 1), .num (.int 2), .str ("```json [x] ```")]) :=
  ⟨rfl, rfl, rfl, rfl, rfl⟩

theorem parseValue_btick (fuel : Nat) (l : List Char) :
    parseValue fuel (btick :: l) = none := by
  cases fuel <;> rfl

theorem jsonLoadsL_btick (l : List Char) : jsonLoadsL (btick :: l) = none := by
  unfold jsonLoadsL
  rw [parseValue_btick]

theorem lazyScan_mid : ∀ (mid acc rest2 : List Char), ']' ∉ mid →
    fenceClose rest2 = true →
    lazyScan acc (mid ++ ']' :: rest2) = some (acc.reverse ++ mid) := by
  intro mid
  induction mid with
  | nil =>
    intro acc rest2 _ hc
    show lazyScan acc (']' :: rest2) = some (acc.reverse ++ [])
    unfold lazyScan
    rw [if_pos]
    · simp
    · simp [hc]
  | cons m ms ih =>
    intro acc rest2 hmid hc
    show lazyScan acc (m :: (ms ++ ']' :: rest2)) = some (acc.reverse ++ m :: ms)
    unfold lazyScan
    rw [if_neg]
    · rw [ih (m :: acc) rest2 (fun h => hmid (by simp [h])) hc]
      simp
    · simp only [Bool.and_eq_true, decide_eq_true_eq, not_and]
      intro hm
      exact absurd hm (fun h => hmid (by simp [h]))

theorem tryFenceAt_fence (mid rest2 : List Char) (hmid : ']' ∉ mid)
    (hc : fenceClose rest2 = true) :
    tryFenceAt (fenceOpen ++ '\n' :: '[' :: (mid ++ ']' :: rest2)) =
      some (('[' :: mid) ++ [']']) := by
  unfold tryFenceAt
  rw [List.take_left' (by rfl), if_pos rfl, List.drop_left' (by rfl)]
  rw [List.dropWhile_cons_of_pos (by decide), List.dropWhile_cons_of_neg (by decide)]
  show (lazyScan [] (mid ++ ']' :: rest2)).map (fun content => '[' :: content ++ [']']) =
    some (('[' :: mid) ++ [']'])
  rw [lazyScan_mid mid [] rest2 hmid hc]
  simp

theorem findFenced_fence (mid rest2 : List Char) (hmid : ']' ∉ mid)
    (hc : fenceClose rest2 = true) :
    findFenced (fenceOpen ++ '\n' :: '[' :: (mid ++ ']' :: rest2)) =
      some (('[' :: mid) ++ [']']) := by
  show (match tryFenceAt (fenceOpen ++ '\n' :: '[' :: (mid ++ ']' :: rest2)) with
      | some g => some g
      | none => findFenced ([btick, btick, 'j', 's', 'o', 'n'] ++
          '\n' :: '[' :: (mid ++ ']' :: rest2))) = some (('[' :: mid) ++ [']'])
  rw [tryFenceAt_fence mid rest2 hmid hc]

theorem tryFenceAt_head (c : Char) (rest : List Char) (hc : c ≠ btick) :
    tryFenceAt (c :: rest) = none := by
  unfold tryFenceAt
  rw [if_neg]
  intro h
  rw [List.take_succ_cons] at h
  exact hc (List.head_eq_of_cons_eq h)

theorem findFenced_no_btick : ∀ l : List Char, btick ∉ l → findFenced l = none := by
  intro l
  induction l with
  | nil => intro _; rfl
  | cons c rest ih =>
    intro h
    show (match tryFenceAt (c :: rest) with
        | some g => some g
        | none => findFenced rest) = none
    rw [tryFenceAt_head c rest (fun hc => h (by simp [hc])),
      ih (fun hr => h (by simp [hr]))]

theorem dropWhileNe_append : ∀ (xs ys : List Char), ']' ∉ xs →
    (xs ++ ']' :: ys).dropWhile (fun c => c ≠ ']') = ']' :: ys := by
  intro xs
  induction xs with
  | nil =>
    intro ys _
    rw [List.nil_append, List.dropWhile_cons_of_neg (by simp)]
  | cons x ts ih =>
    intro ys h
    rw [List.cons_append, List.dropWhile_cons_of_pos (by
      simp only [decide_eq_true_eq]
      exact fun hx => h (by simp [hx]))]
    exact ih ys (fun hr => h (by simp [hr]))

theorem takeToLastClose_embed (mid post : List Char) (hpost : ']' ∉ post) :
    takeToLastClose (mid ++ ']' :: post) = some mid := by
  unfold takeToLastClose
  have hrev : (mid ++ ']' :: post).reverse = post.reverse ++ ']' :: mid.reverse := by
    simp
  rw [hrev, dropWhileNe_append post.reverse mid.reverse
    (fun h => hpost (List.mem_reverse.mp h))]
  simp

theorem findBracketSpan_embed : ∀ (pre mid post : List Char),
    '[' ∉ pre → ']' ∉ post →
    findBracketSpan (pre ++ '[' :: (mid ++ ']' :: post)) =
      some (('[' :: mid) ++ [']']) := by
  intro pre
  induction pre with
  | nil =>
    intro mid post _ hpost
    show (if ('[' : Char) = '[' then
        match takeToLastClose (mid ++ ']' :: post) with
        | some m => some ('[' :: m ++ [']'])
        | none => none
      else findBracketSpan (mid ++ ']' :: post)) = some (('[' :: mid) ++ [']'])
    rw [if_pos rfl, takeToLastClose_embed mid post hpost]
  | cons c ts ih =>
    intro mid post hpre hpost
    show (if c = '[' then
        match takeToLastClose (ts ++ '[' :: (mid ++ ']' :: post)) with
        | some m => some ('[' :: m ++ [']'])
        | none => none
      else findBracketSpan (ts ++ '[' :: (mid ++ ']' :: post))) =
        some (('[' :: mid) ++ [']'])
    rw [if_neg (fun hc => hpre (by simp [hc])),
      ih mid post (fun h => hpre (by simp [h])) hpost]

/-- Claim C1 as amended: the parse tries, in order, (1) the whole text as
JSON, (2) the fenced-json block group, (3) the first greedy bracket span —
but a strategy whose candidate text is FOUND and then fails to decode
aborts the chain with a ParseError (strategy 3 is not attempted after a
fenced-group decode failure); every ParseError carries the original
response text verbatim; and a well-formed array text free of backticks
yields the same decoded value whether presented bare, inside a fenced json
block, or embedded in bracket- and backtick-free prose (when the prose as a
whole is not itself valid JSON). -/
theorem claim_C1_amended :
    (∀ (t : List Char) (v : Json), jsonLoadsL t = some v →
      parseGeminiResponseL t = .success v) ∧
    (∀ (t g : List Char), parseGeminiResponseL t = .failure g → g = t) ∧
    (∀ (mid pre post : List Char) (v : Json),
      jsonLoadsL ('[' :: (mid ++ [']'])) = some v →
      ']' ∉ mid → btick ∉ mid → btick ∉ pre → '[' ∉ pre →
      btick ∉ post → ']' ∉ post →
      jsonLoadsL (pre ++ '[' :: (mid ++ ']' :: post)) = none →
      parseGeminiResponseL ('[' :: (mid ++ [']'])) = .success v ∧
      parseGeminiResponseL
        (fenceOpen ++ '\n' :: '[' :: (mid ++ ']' :: '\n' :: fenceTicks)) = .success v ∧
      parseGeminiResponseL (pre ++ '[' :: (mid ++ ']' :: post)) = .success v) := by
  refine ⟨?_, ?_, ?_⟩
  · intro t v h
    unfold parseGeminiResponseL
    rw [h]
  · intro t g h
    unfold parseGeminiResponseL at h
    rcases h1 : jsonLoadsL t with - | v
    · simp only [h1] at h
      rcases h2 : findFenced t with - | fg
      · simp only [h2] at h
        rcases h3 : findBracketSpan t with - | bg
        · simp only [h3] at h
          injection h with hh
          rw [hh]
        · simp only [h3] at h
          rcases h4 : jsonLoadsL bg with - | v2
          · simp only [h4] at h
            injection h with hh
            rw [hh]
          · simp only [h4] at h
            cases h
      · simp only [h2] at h
        rcases h4 : jsonLoadsL fg with - | v2
        · simp only [h4] at h
          injection h with hh
          rw [hh]
        · simp only [h4] at h
          cases h
    · simp only [h1] at h
      cases h
  · intro mid pre post v h1 hmid hbmid hbpre hpre hbpost hpost hprose
    refine ⟨?_, ?_, ?_⟩
    · unfold parseGeminiResponseL
      rw [h1]
    · have hnone : jsonLoadsL
          (fenceOpen ++ '\n' :: '[' :: (mid ++ ']' :: '\n' :: fenceTicks)) = none :=
        jsonLoadsL_btick _
      unfold parseGeminiResponseL
      simp only [hnone, findFenced_fence mid ('\n' :: fenceTicks) hmid (by decide),
        List.cons_append, h1]
    · have hnofence : findFenced (pre ++ '[' :: (mid ++ ']' :: post)) = none := by
        apply findFenced_no_btick
        intro hmem
        simp only [List.mem_append, List.mem_cons] at hmem
        rcases hmem with hp | hq | hm | he | hb2
        · exact hbpre hp
        · exact absurd hq (by decide)
        · exact hbmid hm
        · exact absurd he (by decide)
        · exact hbpost hb2
      unfold parseGeminiResponseL
      simp only [hprose, hnofence, findBracketSpan_embed pre mid post hpre hpost,
        List.cons_append, h1]

/-- Witness for the amended claim C1: the array `[1, 2]` decodes to the
same value bare, fenced and embedded in prose. -/
theorem claim_C1_witness :
    parseGeminiResponseL ('[' :: ((("1, 2").data) ++ [']'])) =
      .success (.arr [.num (.int 1), .num (.int 2)]) ∧
    parseGeminiResponseL (fenceOpen ++ '\n' :: '[' ::
      ((("1, 2").data) ++ ']' :: '\n' :: fenceTicks)) =
      .success (.arr [.num (.int 1), .num (.int 2)]) ∧
    parseGeminiResponseL ((("say ").data) ++ '[' ::
      ((("1, 2").data) ++ ']' :: ((" end").data))) =
      .success (.arr [.num (.int 1), .num (.int 2)]) :=
  claim_C1_amended.2.2 (("1, 2").data) (("say ").data) ((" end").data)
    (.arr [.num (.int 1), .num (.int 2)]) rfl (by decide) (by decide) (by decide)
    (by decide) (by decide) (by decide) rfl
